import Mathlib

/- Shallow embedding of the grpc-gcp balancer (src/grpcgcp/gcp_balancer.go)
and proofs about its connectivity evaluator, affinity table and pool
state machine. -/

set_option maxRecDepth 8000

/-- Connectivity states, mirroring google.golang.org/grpc/connectivity.State.
The Go zero value of the type is Idle. -/
inductive ConnState where
  | Idle
  | Connecting
  | Ready
  | TransientFailure
  | Shutdown
deriving DecidableEq, Repr

/-- The modulus of Go uint64 arithmetic, 2 to the 64. -/
def U64 : Nat := 18446744073709551616

/-- Counter struct of the evaluator; the Go fields are uint64, kept here as
Nat with explicit reduction mod U64 where the code's arithmetic wraps. -/
structure ConnectivityStateEvaluator where
  numReady : Nat
  numConnecting : Nat
  numTransientFailure : Nat
deriving DecidableEq, Repr

/-- One iteration of the counter-update loop of RecordTransition: adds v
(mod 2 to the 64) to the counter selected by st; Idle and Shutdown touch no
counter. In Go, v is the uint64 value 2*idx-1: 2 to the 64 minus 1 for the
old state (idx 0, a wrapping decrement) and 1 for the new state (idx 1). -/
def cseUpdate (cse : ConnectivityStateEvaluator) (v : Nat) (st : ConnState) :
    ConnectivityStateEvaluator :=
  match st with
  | .Ready => { cse with numReady := (cse.numReady + v) % U64 }
  | .Connecting => { cse with numConnecting := (cse.numConnecting + v) % U64 }
  | .TransientFailure =>
      { cse with numTransientFailure := (cse.numTransientFailure + v) % U64 }
  | _ => cse

/-- The evaluation tail of RecordTransition. -/
def ConnectivityStateEvaluator.evaluate (cse : ConnectivityStateEvaluator) :
    ConnState :=
  if 0 < cse.numReady then .Ready
  else if 0 < cse.numConnecting then .Connecting
  else .TransientFailure

/-- RecordTransition: update the counters for the old and the new state,
then evaluate. Returns the aggregate state with the updated evaluator. -/
def ConnectivityStateEvaluator.RecordTransition
    (cse : ConnectivityStateEvaluator) (oldState newState : ConnState) :
    ConnState × ConnectivityStateEvaluator :=
  let cse2 := cseUpdate (cseUpdate cse (U64 - 1) oldState) 1 newState
  (cse2.evaluate, cse2)

/-- Two's-complement wrap of Go int32 arithmetic (atomic.AddInt32). -/
def wrap32 (x : Int) : Int := (x + 2147483648) % 4294967296 - 2147483648

/-- Lookup in an association list, modelling a Go map read. -/
def alookup {κ ν : Type} [DecidableEq κ] : List (κ × ν) → κ → Option ν
  | [], _ => none
  | p :: t, k => if k = p.1 then some p.2 else alookup t k

/-- Insert-or-update, modelling a Go map assignment. -/
def aupsert {κ ν : Type} [DecidableEq κ] : List (κ × ν) → κ → ν → List (κ × ν)
  | [], k, v => [(k, v)]
  | p :: t, k, v => if k = p.1 then (k, v) :: t else p :: aupsert t k v

/-- Deletion, modelling a Go map delete. -/
def aerase {κ ν : Type} [DecidableEq κ] : List (κ × ν) → κ → List (κ × ν)
  | [], _ => []
  | p :: t, k => if k = p.1 then aerase t k else p :: aerase t k

theorem alookup_aupsert {κ ν : Type} [DecidableEq κ]
    (l : List (κ × ν)) (k k' : κ) (v : ν) :
    alookup (aupsert l k v) k' = if k' = k then some v else alookup l k' := by
  induction l with
  | nil => simp [aupsert, alookup]
  | cons p t ih =>
    obtain ⟨a, b⟩ := p
    by_cases hk : k = a
    · subst hk
      by_cases h : k' = k
      · subst h; simp [aupsert, alookup]
      · simp [aupsert, alookup, h]
    · by_cases h : k' = a
      · subst h
        have h2 : ¬ k' = k := fun he => hk he.symm
        simp [aupsert, alookup, hk, h2]
      · simp [aupsert, alookup, hk, h, ih]

theorem alookup_aerase {κ ν : Type} [DecidableEq κ]
    (l : List (κ × ν)) (k k' : κ) :
    alookup (aerase l k) k' = if k' = k then none else alookup l k' := by
  induction l with
  | nil => simp [aerase, alookup]
  | cons p t ih =>
    obtain ⟨a, b⟩ := p
    by_cases hk : k = a
    · subst hk
      by_cases h : k' = k
      · subst h; simp [aerase, alookup, ih]
      · simp [aerase, alookup, h, ih]
    · by_cases h : k' = a
      · subst h
        have h2 : ¬ k' = k := fun he => hk he.symm
        simp [aerase, alookup, hk, h2]
      · simp [aerase, alookup, hk, h, ih]

/-- Per-connection record (subConnRef). The handle doubles as the map key;
the two counts are Go int32 values updated by atomic add. -/
structure subConnRef where
  subConn : Nat
  affinityCnt : Int
  streamsCnt : Int
deriving DecidableEq, Repr

/-- The balancer state: resolved addresses, aggregate state, evaluator, the
affinity map, the two per-handle maps, and a counter modelling the host
runtime handing out fresh SubConn handles (cc.NewSubConn). External calls
(Connect, UpdateAddresses, UpdateBalancerState, picker construction) have no
effect on this state and are not modelled. -/
structure gcpBalancer where
  addrs : List Nat
  state : ConnState
  csEvltr : ConnectivityStateEvaluator
  affinityMap : List (String × Nat)
  scStates : List (Nat × ConnState)
  scRefs : List (Nat × subConnRef)
  nextSC : Nat
deriving DecidableEq, Repr

/-- A freshly built balancer: empty maps, zero counters; gb.state carries the
Go zero value Idle. -/
def initGB : gcpBalancer := ⟨[], .Idle, ⟨0, 0, 0⟩, [], [], [], 0⟩

/-- newSubConn: if any tracked state is Connecting, return without creating.
ccFail models cc.NewSubConn returning an error, in which case the code logs
and returns. Otherwise the fresh handle is registered with a zero-count ref
and Idle state, and asked to connect (external). -/
def gcpBalancer.newSubConn (gb : gcpBalancer) (ccFail : Bool) : gcpBalancer :=
  if gb.scStates.any (fun p => decide (p.2 = ConnState.Connecting)) then gb
  else if ccFail then gb
  else { gb with
    scRefs := aupsert gb.scRefs gb.nextSC ⟨gb.nextSC, 0, 0⟩
    scStates := aupsert gb.scStates gb.nextSC .Idle
    nextSC := gb.nextSC + 1 }

/-- HandleResolvedAddrs on the success path: store the addresses, then create
the first connection if the pool is empty; with a nonempty pool the code only
issues external UpdateAddresses and Connect calls. The resolver-error path
returns before touching anything and is a separate event in stepB. -/
def gcpBalancer.handleResolvedAddrs (gb : gcpBalancer) (addrList : List Nat)
    (ccFail : Bool) : gcpBalancer :=
  if gb.scRefs = [] then
    ({ gb with addrs := addrList } : gcpBalancer).newSubConn ccFail
  else { gb with addrs := addrList }

/-- getReadySubConnRef: a handle missing from scStates reads as the Go map
zero value, Idle; a handle missing from scRefs reads as nil (none). -/
def gcpBalancer.getReadySubConnRef (gb : gcpBalancer) (boundKey : String) :
    Option subConnRef × Bool :=
  match alookup gb.affinityMap boundKey with
  | some sc =>
    if (alookup gb.scStates sc).getD .Idle ≠ .Ready then (none, true)
    else (alookup gb.scRefs sc, true)
  | none => (none, false)

/-- bindSubConn: insert the mapping only when the key is absent, then
unconditionally bump the affinity count of the handle's ref. When the handle
has no ref, the Go code dereferences a nil map value and panics: none. -/
def gcpBalancer.bindSubConn (gb : gcpBalancer) (bindKey : String) (sc : Nat) :
    Option gcpBalancer :=
  let am := match alookup gb.affinityMap bindKey with
    | some _ => gb.affinityMap
    | none => aupsert gb.affinityMap bindKey sc
  match alookup gb.scRefs sc with
  | none => none
  | some ref => some { gb with
      affinityMap := am
      scRefs := aupsert gb.scRefs sc
        { ref with affinityCnt := wrap32 (ref.affinityCnt + 1) } }

/-- unbindSubConn: when the key is bound, decrement the bound handle's
affinity count and delete the mapping if the decremented count is at most
zero. A bound handle with no ref is a nil dereference in Go: none. -/
def gcpBalancer.unbindSubConn (gb : gcpBalancer) (boundKey : String) :
    Option gcpBalancer :=
  match alookup gb.affinityMap boundKey with
  | none => some gb
  | some boundSC =>
    match alookup gb.scRefs boundSC with
    | none => none
    | some ref =>
      let newCnt := wrap32 (ref.affinityCnt - 1)
      let refs1 := aupsert gb.scRefs boundSC { ref with affinityCnt := newCnt }
      let gb1 := { gb with scRefs := refs1 }
      if newCnt ≤ 0 then
        some { gb1 with affinityMap := aerase gb1.affinityMap boundKey }
      else some gb1

/-- HandleSubConnStateChange: unknown handles are logged and ignored. For a
known handle the new state is recorded (the Idle case additionally issues an
external Connect; Shutdown deletes the handle from both maps), then the
evaluator recomputes the aggregate state from (old, new). Picker
regeneration and UpdateBalancerState only produce external effects. -/
def gcpBalancer.handleSubConnStateChange (gb : gcpBalancer) (sc : Nat)
    (s : ConnState) : gcpBalancer :=
  match alookup gb.scStates sc with
  | none => gb
  | some oldS =>
    let gb1 := { gb with scStates := aupsert gb.scStates sc s }
    let gb2 := if s = .Shutdown then
        { gb1 with
          scRefs := aerase gb1.scRefs sc
          scStates := aerase gb1.scStates sc }
      else gb1
    let r := gb.csEvltr.RecordTransition oldS s
    { gb2 with csEvltr := r.2, state := r.1 }

/-- Modelled from the spec: stream open is the picker calling streamsIncr on
a ref it holds (gcp_picker.go is not under src/); the picker only holds refs
of connections it was handed, so an unknown handle is a no-op here. -/
def gcpBalancer.streamsIncr (gb : gcpBalancer) (sc : Nat) : gcpBalancer :=
  match alookup gb.scRefs sc with
  | none => gb
  | some ref =>
    let refs1 := aupsert gb.scRefs sc { ref with streamsCnt := wrap32 (ref.streamsCnt + 1) }
    { gb with scRefs := refs1 }

/-- Modelled from the spec: stream close is the picker calling streamsDecr
when a call completes; an unknown handle is a no-op here. -/
def gcpBalancer.streamsDecr (gb : gcpBalancer) (sc : Nat) : gcpBalancer :=
  match alookup gb.scRefs sc with
  | none => gb
  | some ref =>
    let refs1 := aupsert gb.scRefs sc { ref with streamsCnt := wrap32 (ref.streamsCnt - 1) }
    { gb with scRefs := refs1 }

/-- The public operations of the pool, as invoked by the host runtime and,
for newConn, bind, unbind and the stream events, by the picker. -/
inductive PoolEvent where
  | resolveErr
  | resolve (addrList : List Nat) (ccFail : Bool)
  | newConn (ccFail : Bool)
  | stateChange (sc : Nat) (st : ConnState)
  | bind (key : String) (sc : Nat)
  | unbind (key : String)
  | streamOpen (sc : Nat)
  | streamClose (sc : Nat)
deriving DecidableEq, Repr

/-- One public operation. none models a Go panic. -/
def stepB (gb : gcpBalancer) : PoolEvent → Option gcpBalancer
  | .resolveErr => some gb
  | .resolve addrList f => some (gb.handleResolvedAddrs addrList f)
  | .newConn f => some (gb.newSubConn f)
  | .stateChange sc st => some (gb.handleSubConnStateChange sc st)
  | .bind k sc => gb.bindSubConn k sc
  | .unbind k => gb.unbindSubConn k
  | .streamOpen sc => some (gb.streamsIncr sc)
  | .streamClose sc => some (gb.streamsDecr sc)

/-- Run a sequence of operations; none as soon as one panics. -/
def runB (gb : gcpBalancer) : List PoolEvent → Option gcpBalancer
  | [] => some gb
  | e :: t =>
    match stepB gb e with
    | none => none
    | some gb' => runB gb' t

/-- A state the balancer can reach from its built state by public
operations, none of which panicked. -/
def Reachable (gb : gcpBalancer) : Prop := ∃ evs, runB initGB evs = some gb

/-- The number of tracked connections whose recorded state is Connecting. -/
def connectingCount (gb : gcpBalancer) : Nat :=
  gb.scStates.countP (fun p => decide (p.2 = ConnState.Connecting))

/-- The operations whose Go code cannot hit a nil-map-value dereference:
everything except bind on an untracked handle and unbind of a key whose
bound handle has no tracked ref. -/
def noPanic (gb : gcpBalancer) : PoolEvent → Prop
  | .bind _ sc => (alookup gb.scRefs sc).isSome = true
  | .unbind k => ∀ sc, alookup gb.affinityMap k = some sc →
      (alookup gb.scRefs sc).isSome = true
  | _ => True

/-- A balancer holding exactly one freshly created Idle connection with
handle 0, as after the first address resolution. -/
def gbOneIdle : gcpBalancer :=
  ⟨[5], .Idle, ⟨0, 0, 0⟩, [], [(0, .Idle)], [(0, ⟨0, 0, 0⟩)], 1⟩

/-- A balancer in which key "k" is bound to the Idle connection 0 with
affinity count 1. -/
def gbOneBound : gcpBalancer :=
  ⟨[5], .Idle, ⟨0, 0, 0⟩, [("k", 0)], [(0, .Idle)], [(0, ⟨0, 1, 0⟩)], 1⟩

/-- The structural invariant of the balancer state: scStates and scRefs
track the same handles, and every handle recorded anywhere was handed out
by the host runtime (is below nextSC). -/
def SMInv (gb : gcpBalancer) : Prop :=
  (∀ sc, (alookup gb.scStates sc).isSome = (alookup gb.scRefs sc).isSome) ∧
  (∀ sc st, alookup gb.scStates sc = some st → sc < gb.nextSC) ∧
  (∀ k sc, alookup gb.affinityMap k = some sc → sc < gb.nextSC)

/-- Number of occurrences of a state in a pool of connection states. -/
def countS (a : ConnState) : List ConnState → Nat
  | [] => 0
  | b :: t => (if b = a then 1 else 0) + countS a t

theorem countS_le_length (a : ConnState) (l : List ConnState) :
    countS a l ≤ l.length := by
  induction l with
  | nil => simp [countS]
  | cons b t ih => by_cases h : b = a <;> simp [countS, h] <;> omega

theorem countS_pos_iff (a : ConnState) (l : List ConnState) :
    0 < countS a l ↔ a ∈ l := by
  induction l with
  | nil => simp [countS]
  | cons b t ih =>
    by_cases h : b = a
    · subst h; simp [countS]
    · have h2 : ¬ a = b := fun he => h he.symm
      simp [countS, h, h2, ih]

/-- The state recorded for connection i, with the Go zero value Idle for an
absent entry. -/
def getSt (l : List ConnState) (i : Nat) : ConnState := l.getD i .Idle

theorem getSt_cons_zero (b : ConnState) (t : List ConnState) :
    getSt (b :: t) 0 = b := rfl

theorem getSt_cons_succ (b : ConnState) (t : List ConnState) (j : Nat) :
    getSt (b :: t) (j + 1) = getSt t j := rfl

theorem countS_set (l : List ConnState) (i : Nat) (x a : ConnState)
    (h : i < l.length) :
    countS a (l.set i x) + (if getSt l i = a then 1 else 0)
      = countS a l + (if x = a then 1 else 0) := by
  induction l generalizing i with
  | nil => simp at h
  | cons b t ih =>
    cases i with
    | zero => simp [countS, getSt_cons_zero]; omega
    | succ j =>
      have hj : j < t.length := by simpa using h
      have hih := ih j hj
      simp [countS, getSt_cons_succ]
      omega

theorem countS_replicate_Idle (a : ConnState) (n : Nat) (h : a ≠ .Idle) :
    countS a (List.replicate n .Idle) = 0 := by
  induction n with
  | zero => simp [countS]
  | succ m ih =>
    have h2 : ¬ ConnState.Idle = a := fun he => h he.symm
    simp [List.replicate, countS, h2, ih]

/-- Trace semantics for the evaluator. The pool is a list of connection
states (index = connection), all initially Idle as the balancer registers
fresh connections. An event (i, w) means connection i transitions from its
currently recorded state to w; the pair (old, w) is fed to RecordTransition
exactly as HandleSubConnStateChange does, and the returned aggregate is kept
as the third component. -/
def evalStep (s : List ConnState × ConnectivityStateEvaluator × ConnState)
    (e : Nat × ConnState) :
    List ConnState × ConnectivityStateEvaluator × ConnState :=
  (s.1.set e.1 e.2,
   (s.2.1.RecordTransition (getSt s.1 e.1) e.2).2,
   (s.2.1.RecordTransition (getSt s.1 e.1) e.2).1)

/-- Run a transition trace against a pool of n connections and a zeroed
evaluator. -/
def evalRun (n : Nat) (evs : List (Nat × ConnState)) :
    List ConnState × ConnectivityStateEvaluator × ConnState :=
  evs.foldl evalStep (List.replicate n .Idle, ⟨0, 0, 0⟩, .TransientFailure)

/-- The aggregate state the spec prescribes for a pool of connection
states: Ready if any connection is Ready, else Connecting if any is
Connecting, else TransientFailure. -/
def aggOf (pool : List ConnState) : ConnState :=
  if ConnState.Ready ∈ pool then .Ready
  else if ConnState.Connecting ∈ pool then .Connecting
  else .TransientFailure

/-- The evaluator counters agree with the per-state occurrence counts of
the pool. -/
def EvalInv (n : Nat) (pool : List ConnState)
    (cse : ConnectivityStateEvaluator) : Prop :=
  pool.length = n ∧ cse.numReady = countS .Ready pool ∧
    cse.numConnecting = countS .Connecting pool ∧
    cse.numTransientFailure = countS .TransientFailure pool

theorem numReady_cseUpdate (cse : ConnectivityStateEvaluator) (v : Nat)
    (st : ConnState) :
    (cseUpdate cse v st).numReady
      = if st = .Ready then (cse.numReady + v) % U64 else cse.numReady := by
  cases st <;> simp [cseUpdate]

theorem numConnecting_cseUpdate (cse : ConnectivityStateEvaluator) (v : Nat)
    (st : ConnState) :
    (cseUpdate cse v st).numConnecting
      = if st = .Connecting then (cse.numConnecting + v) % U64
        else cse.numConnecting := by
  cases st <;> simp [cseUpdate]

theorem numTransientFailure_cseUpdate (cse : ConnectivityStateEvaluator)
    (v : Nat) (st : ConnState) :
    (cseUpdate cse v st).numTransientFailure
      = if st = .TransientFailure then (cse.numTransientFailure + v) % U64
        else cse.numTransientFailure := by
  cases st <;> simp [cseUpdate]

theorem cse_counter_step (c cNew : Nat) (po pw : Prop)
    [Decidable po] [Decidable pw] (hb : c < U64) (hb2 : cNew < U64)
    (heq : cNew + (if po then 1 else 0) = c + (if pw then 1 else 0)) :
    (if pw then ((if po then (c + (U64 - 1)) % U64 else c) + 1) % U64
      else if po then (c + (U64 - 1)) % U64 else c) = cNew := by
  by_cases hpo : po <;> by_cases hpw : pw <;>
    simp [hpo, hpw, U64] at heq hb hb2 ⊢ <;> omega

theorem evalStep_inv (n : Nat) (hn : n < U64)
    (s : List ConnState × ConnectivityStateEvaluator × ConnState)
    (e : Nat × ConnState) (he : e.1 < n) (h : EvalInv n s.1 s.2.1) :
    EvalInv n (evalStep s e).1 (evalStep s e).2.1 := by
  obtain ⟨hl, hr, hc, ht⟩ := h
  have hil : e.1 < s.1.length := by omega
  have eqR := countS_set s.1 e.1 e.2 .Ready hil
  have eqC := countS_set s.1 e.1 e.2 .Connecting hil
  have eqT := countS_set s.1 e.1 e.2 .TransientFailure hil
  have hlen : (s.1.set e.1 e.2).length = s.1.length := List.length_set s.1 e.1 e.2
  have hbR : countS .Ready s.1 < U64 :=
    lt_of_le_of_lt (countS_le_length _ _) (by omega)
  have hbC : countS .Connecting s.1 < U64 :=
    lt_of_le_of_lt (countS_le_length _ _) (by omega)
  have hbT : countS .TransientFailure s.1 < U64 :=
    lt_of_le_of_lt (countS_le_length _ _) (by omega)
  have hbR2 : countS .Ready (s.1.set e.1 e.2) < U64 :=
    lt_of_le_of_lt (countS_le_length _ _) (by omega)
  have hbC2 : countS .Connecting (s.1.set e.1 e.2) < U64 :=
    lt_of_le_of_lt (countS_le_length _ _) (by omega)
  have hbT2 : countS .TransientFailure (s.1.set e.1 e.2) < U64 :=
    lt_of_le_of_lt (countS_le_length _ _) (by omega)
  refine ⟨hlen.trans hl, ?_, ?_, ?_⟩
  · show (cseUpdate (cseUpdate s.2.1 (U64 - 1) (getSt s.1 e.1)) 1 e.2).numReady
      = countS .Ready (s.1.set e.1 e.2)
    rw [numReady_cseUpdate, numReady_cseUpdate, hr]
    exact cse_counter_step _ _ _ _ hbR hbR2 eqR
  · show (cseUpdate (cseUpdate s.2.1 (U64 - 1) (getSt s.1 e.1)) 1
        e.2).numConnecting = countS .Connecting (s.1.set e.1 e.2)
    rw [numConnecting_cseUpdate, numConnecting_cseUpdate, hc]
    exact cse_counter_step _ _ _ _ hbC hbC2 eqC
  · show (cseUpdate (cseUpdate s.2.1 (U64 - 1) (getSt s.1 e.1)) 1
        e.2).numTransientFailure
      = countS .TransientFailure (s.1.set e.1 e.2)
    rw [numTransientFailure_cseUpdate, numTransientFailure_cseUpdate, ht]
    exact cse_counter_step _ _ _ _ hbT hbT2 eqT

theorem evalFold_inv (n : Nat) (hn : n < U64) :
    ∀ (evs : List (Nat × ConnState))
      (s : List ConnState × ConnectivityStateEvaluator × ConnState),
      EvalInv n s.1 s.2.1 → (∀ e ∈ evs, e.1 < n) →
      EvalInv n (evs.foldl evalStep s).1 (evs.foldl evalStep s).2.1
  | [], s, h, _ => by simpa using h
  | e :: t, s, h, hev => by
    have h1 := evalStep_inv n hn s e (hev e (by simp)) h
    have h2 := evalFold_inv n hn t (evalStep s e) h1
      (fun x hx => hev x (by simp [hx]))
    simpa using h2

theorem evalStep_res (s : List ConnState × ConnectivityStateEvaluator × ConnState)
    (e : Nat × ConnState) :
    (evalStep s e).2.2 = (evalStep s e).2.1.evaluate := rfl

theorem evaluate_eq_aggOf (n : Nat) (pool : List ConnState)
    (cse : ConnectivityStateEvaluator) (h : EvalInv n pool cse) :
    cse.evaluate = aggOf pool := by
  obtain ⟨-, hr, hc, -⟩ := h
  have hR := countS_pos_iff .Ready pool
  have hC := countS_pos_iff .Connecting pool
  by_cases h1 : ConnState.Ready ∈ pool <;>
    by_cases h2 : ConnState.Connecting ∈ pool <;>
    simp [ConnectivityStateEvaluator.evaluate, aggOf, hr, hc, hR, hC, h1, h2]

/-- C1: for every transition trace over a pool of fewer than 2 to the 64
connections, feeding each (recorded old state, new state) pair to
RecordTransition exactly as HandleSubConnStateChange does, the value
returned by the last call is Ready iff at least one connection is currently
Ready, else Connecting iff at least one is currently Connecting, else
TransientFailure: it equals aggOf of the final pool. -/
theorem c1_RecordTransition_trace (n : Nat) (evs : List (Nat × ConnState))
    (hn : n < U64) (hev : ∀ e ∈ evs, e.1 < n) (hne : evs ≠ []) :
    (evalRun n evs).2.2 = aggOf (evalRun n evs).1 := by
  rcases List.eq_nil_or_concat evs with h | ⟨t, e, rfl⟩
  · exact absurd h hne
  · have hInv0 : EvalInv n (List.replicate n ConnState.Idle) ⟨0, 0, 0⟩ :=
      ⟨by simp, (countS_replicate_Idle _ n (by decide)).symm,
        (countS_replicate_Idle _ n (by decide)).symm,
        (countS_replicate_Idle _ n (by decide)).symm⟩
    have hmid := evalFold_inv n hn t
      (List.replicate n .Idle, ⟨0, 0, 0⟩, .TransientFailure) hInv0
      (fun x hx => hev x (by simp; exact Or.inl hx))
    have hfin := evalStep_inv n hn
      (t.foldl evalStep (List.replicate n .Idle, ⟨0, 0, 0⟩, .TransientFailure))
      e (hev e (by simp)) hmid
    unfold evalRun
    rw [List.concat_eq_append, List.foldl_append]
    simp only [List.foldl_cons, List.foldl_nil]
    rw [evalStep_res]
    exact evaluate_eq_aggOf n _ _ hfin

/-- Witness for C1: one connection, the single transition (Idle, Ready). -/
theorem c1_RecordTransition_trace_witness :
    1 < U64 ∧ (∀ e ∈ [((0 : Nat), ConnState.Ready)], e.1 < 1) ∧
      (evalRun 1 [(0, ConnState.Ready)]).2.2
        = aggOf (evalRun 1 [(0, ConnState.Ready)]).1 :=
  ⟨by decide, by decide,
    c1_RecordTransition_trace 1 [(0, ConnState.Ready)] (by decide) (by decide)
      (by decide)⟩

/-- C2: each RecordTransition call updates the three uint64 counters by a
wrapping (mod 2 to the 64) decrement of the counter of the old state and a
wrapping increment of the counter of the new state; Idle and Shutdown touch
no counter; the update is total over all pairs, including old = new, and
the counters are non-negative naturals. -/
theorem c2_RecordTransition_counters (cse : ConnectivityStateEvaluator)
    (oldState newState : ConnState)
    (h1 : cse.numReady < U64) (h2 : cse.numConnecting < U64)
    (h3 : cse.numTransientFailure < U64) :
    ((cse.RecordTransition oldState newState).2.numReady
        = (cse.numReady + (if oldState = .Ready then U64 - 1 else 0)
            + (if newState = .Ready then 1 else 0)) % U64) ∧
    ((cse.RecordTransition oldState newState).2.numConnecting
        = (cse.numConnecting + (if oldState = .Connecting then U64 - 1 else 0)
            + (if newState = .Connecting then 1 else 0)) % U64) ∧
    ((cse.RecordTransition oldState newState).2.numTransientFailure
        = (cse.numTransientFailure
            + (if oldState = .TransientFailure then U64 - 1 else 0)
            + (if newState = .TransientFailure then 1 else 0)) % U64) := by
  refine ⟨?_, ?_, ?_⟩
  · show (cseUpdate (cseUpdate cse (U64 - 1) oldState) 1 newState).numReady = _
    rw [numReady_cseUpdate, numReady_cseUpdate]
    by_cases h4 : oldState = .Ready <;> by_cases h5 : newState = .Ready <;>
      simp [h4, h5, U64] at h1 ⊢ <;> omega
  · show (cseUpdate (cseUpdate cse (U64 - 1) oldState) 1
        newState).numConnecting = _
    rw [numConnecting_cseUpdate, numConnecting_cseUpdate]
    by_cases h4 : oldState = .Connecting <;>
      by_cases h5 : newState = .Connecting <;>
      simp [h4, h5, U64] at h2 ⊢ <;> omega
  · show (cseUpdate (cseUpdate cse (U64 - 1) oldState) 1
        newState).numTransientFailure = _
    rw [numTransientFailure_cseUpdate, numTransientFailure_cseUpdate]
    by_cases h4 : oldState = .TransientFailure <;>
      by_cases h5 : newState = .TransientFailure <;>
      simp [h4, h5, U64] at h3 ⊢ <;> omega

/-- Witness for C2 at the concrete evaluator (5, 3, 2) and the pair
(Ready, Connecting). -/
theorem c2_RecordTransition_counters_witness :
    5 < U64 ∧ 3 < U64 ∧ 2 < U64 ∧
      (((⟨5, 3, 2⟩ : ConnectivityStateEvaluator).RecordTransition
          ConnState.Ready ConnState.Connecting).2.numReady
        = (5 + (U64 - 1) + 0) % U64) :=
  ⟨by decide, by decide, by decide, by
    have h := c2_RecordTransition_counters ⟨5, 3, 2⟩ .Ready .Connecting
      (by decide) (by decide) (by decide)
    simpa using h.1⟩

theorem SMInv_initGB : SMInv initGB :=
  ⟨fun _ => rfl, fun _ _ h => by simp [initGB, alookup] at h,
   fun _ _ h => by simp [initGB, alookup] at h⟩

theorem scRef_lt_nextSC (gb : gcpBalancer) (sc : Nat) (h : SMInv gb)
    (href : (alookup gb.scRefs sc).isSome = true) : sc < gb.nextSC := by
  obtain ⟨h1, h2, h3⟩ := h
  obtain ⟨st, hst⟩ := Option.isSome_iff_exists.mp ((h1 sc).trans href)
  exact h2 sc st hst

theorem SMInv_updateRef (gb : gcpBalancer) (sc : Nat) (ref' : subConnRef)
    (h : SMInv gb) (hs : (alookup gb.scRefs sc).isSome = true) :
    SMInv { gb with scRefs := aupsert gb.scRefs sc ref' } := by
  obtain ⟨h1, h2, h3⟩ := h
  refine ⟨fun q => ?_, h2, h3⟩
  by_cases hq : q = sc
  · simp [alookup_aupsert, hq]
    exact (h1 sc).trans hs
  · simp [alookup_aupsert, hq]
    exact h1 q

theorem SMInv_newSubConn (gb : gcpBalancer) (f : Bool) (h : SMInv gb) :
    SMInv (gb.newSubConn f) := by
  obtain ⟨h1, h2, h3⟩ := h
  unfold gcpBalancer.newSubConn
  by_cases hg : gb.scStates.any (fun p => decide (p.2 = ConnState.Connecting)) = true
  · simp [hg]
    exact ⟨h1, h2, h3⟩
  · cases f
    · simp [hg]
      refine ⟨fun q => ?_, fun q st hst => ?_, fun k q hk => ?_⟩
      · by_cases hq : q = gb.nextSC <;> simp [alookup_aupsert, hq, h1 q]
      · by_cases hq : q = gb.nextSC
        · simp [hq]
        · simp [alookup_aupsert, hq] at hst
          exact Nat.lt_succ_of_lt (h2 q st hst)
      · exact Nat.lt_succ_of_lt (h3 k q hk)
    · simp [hg]
      exact ⟨h1, h2, h3⟩

theorem SMInv_handleResolvedAddrs (gb : gcpBalancer) (a : List Nat) (f : Bool)
    (h : SMInv gb) : SMInv (gb.handleResolvedAddrs a f) := by
  unfold gcpBalancer.handleResolvedAddrs
  by_cases he : gb.scRefs = []
  · rw [if_pos he]
    exact SMInv_newSubConn { gb with addrs := a } f h
  · rw [if_neg he]
    exact h

theorem SMInv_handleSubConnStateChange (gb : gcpBalancer) (sc : Nat)
    (s : ConnState) (h : SMInv gb) :
    SMInv (gb.handleSubConnStateChange sc s) := by
  obtain ⟨h1, h2, h3⟩ := h
  unfold gcpBalancer.handleSubConnStateChange
  cases hst : alookup gb.scStates sc with
  | none => exact ⟨h1, h2, h3⟩
  | some oldS =>
    by_cases hsd : s = .Shutdown
    · simp only [hsd, if_pos rfl]
      refine ⟨fun q => ?_, fun q st hq => ?_, fun k q hq => h3 k q hq⟩
      · by_cases hq : q = sc <;>
          simp [alookup_aerase, alookup_aupsert, hq, h1 q]
      · simp [alookup_aerase, alookup_aupsert] at hq
        by_cases hqsc : q = sc <;> simp [hqsc] at hq
        exact h2 q st hq
    · simp only [if_neg hsd]
      refine ⟨fun q => ?_, fun q st hq => ?_, fun k q hq => h3 k q hq⟩
      · by_cases hq : q = sc
        · simp [alookup_aupsert, hq]
          exact (h1 sc).symm.trans (by simp [hst])
        · simp [alookup_aupsert, hq]
          exact h1 q
      · simp [alookup_aupsert] at hq
        by_cases hqsc : q = sc
        · subst hqsc
          exact h2 q oldS hst
        · simp [hqsc] at hq
          exact h2 q st hq

theorem stepB_SMInv (gb gb' : gcpBalancer) (e : PoolEvent) (h : SMInv gb)
    (hs : stepB gb e = some gb') : SMInv gb' := by
  cases e with
  | resolveErr =>
    simp [stepB] at hs
    subst hs; exact h
  | resolve a f =>
    simp [stepB] at hs
    subst hs; exact SMInv_handleResolvedAddrs gb a f h
  | newConn f =>
    simp [stepB] at hs
    subst hs; exact SMInv_newSubConn gb f h
  | stateChange sc st =>
    simp [stepB] at hs
    subst hs; exact SMInv_handleSubConnStateChange gb sc st h
  | bind k sc =>
    obtain ⟨h1, h2, h3⟩ := h
    cases href : alookup gb.scRefs sc with
    | none => simp [stepB, gcpBalancer.bindSubConn, href] at hs
    | some ref =>
      have hlt : sc < gb.nextSC :=
        scRef_lt_nextSC gb sc ⟨h1, h2, h3⟩ (by simp [href])
      cases ham : alookup gb.affinityMap k with
      | some sc0 =>
        simp [stepB, gcpBalancer.bindSubConn, href, ham] at hs
        subst hs
        exact SMInv_updateRef gb sc _ ⟨h1, h2, h3⟩ (by simp [href])
      | none =>
        simp [stepB, gcpBalancer.bindSubConn, href, ham] at hs
        subst hs
        obtain ⟨g1, g2, g3⟩ := SMInv_updateRef gb sc
          { ref with affinityCnt := wrap32 (ref.affinityCnt + 1) }
          ⟨h1, h2, h3⟩ (by simp [href])
        refine ⟨g1, g2, fun k' q hk => ?_⟩
        show q < gb.nextSC
        by_cases hkk : k' = k
        · simp [alookup_aupsert, hkk] at hk
          omega
        · simp [alookup_aupsert, hkk] at hk
          exact h3 k' q hk
  | unbind k =>
    obtain ⟨h1, h2, h3⟩ := h
    cases ham : alookup gb.affinityMap k with
    | none =>
      simp [stepB, gcpBalancer.unbindSubConn, ham] at hs
      subst hs; exact ⟨h1, h2, h3⟩
    | some sc0 =>
      cases href : alookup gb.scRefs sc0 with
      | none => simp [stepB, gcpBalancer.unbindSubConn, ham, href] at hs
      | some ref =>
        by_cases hle : wrap32 (ref.affinityCnt - 1) ≤ 0
        · simp [stepB, gcpBalancer.unbindSubConn, ham, href, hle] at hs
          subst hs
          obtain ⟨g1, g2, g3⟩ := SMInv_updateRef gb sc0
            { ref with affinityCnt := wrap32 (ref.affinityCnt - 1) }
            ⟨h1, h2, h3⟩ (by simp [href])
          refine ⟨g1, g2, fun k' q hk => ?_⟩
          by_cases hkk : k' = k
          · simp [alookup_aerase, hkk] at hk
          · simp [alookup_aerase, hkk] at hk
            exact h3 k' q hk
        · simp [stepB, gcpBalancer.unbindSubConn, ham, href, hle] at hs
          subst hs
          exact SMInv_updateRef gb sc0 _ ⟨h1, h2, h3⟩ (by simp [href])
  | streamOpen sc =>
    cases href : alookup gb.scRefs sc with
    | none =>
      simp [stepB, gcpBalancer.streamsIncr, href] at hs
      subst hs; exact h
    | some ref =>
      simp [stepB, gcpBalancer.streamsIncr, href] at hs
      subst hs
      exact SMInv_updateRef gb sc _ h (by simp [href])
  | streamClose sc =>
    cases href : alookup gb.scRefs sc with
    | none =>
      simp [stepB, gcpBalancer.streamsDecr, href] at hs
      subst hs; exact h
    | some ref =>
      simp [stepB, gcpBalancer.streamsDecr, href] at hs
      subst hs
      exact SMInv_updateRef gb sc _ h (by simp [href])

theorem runB_SMInv : ∀ (t : List PoolEvent) (gb gb' : gcpBalancer),
    SMInv gb → runB gb t = some gb' → SMInv gb'
  | [], gb, gb', h, hs => by
    simp [runB] at hs
    subst hs; exact h
  | e :: t, gb, gb', h, hs => by
    cases hst : stepB gb e with
    | none => simp [runB, hst] at hs
    | some gb1 =>
      simp only [runB, hst] at hs
      exact runB_SMInv t gb1 gb' (stepB_SMInv gb gb1 e h hst) hs

theorem reachable_SMInv (gb : gcpBalancer) (h : Reachable gb) : SMInv gb := by
  obtain ⟨evs, hr⟩ := h
  exact runB_SMInv evs initGB gb SMInv_initGB hr

theorem newSubConn_pres_binding (gb : gcpBalancer) (f : Bool) (k : String)
    (sc : Nat) (hlt : sc < gb.nextSC)
    (hb : alookup gb.affinityMap k = some sc)
    (hdead : alookup gb.scStates sc = none) :
    alookup (gb.newSubConn f).affinityMap k = some sc ∧
      alookup (gb.newSubConn f).scStates sc = none := by
  unfold gcpBalancer.newSubConn
  by_cases hg : gb.scStates.any (fun p => decide (p.2 = ConnState.Connecting)) = true
  · simp [hg]
    exact ⟨hb, hdead⟩
  · cases f
    · have hne : ¬ sc = gb.nextSC := by omega
      simp [hg, alookup_aupsert, hne, hb, hdead]
    · simp [hg]
      exact ⟨hb, hdead⟩

theorem stepB_pres_binding (gb gb' : gcpBalancer) (e : PoolEvent) (k : String)
    (sc : Nat) (h : SMInv gb) (hb : alookup gb.affinityMap k = some sc)
    (hdead : alookup gb.scStates sc = none) (hs : stepB gb e = some gb') :
    alookup gb'.affinityMap k = some sc ∧
      alookup gb'.scStates sc = none := by
  obtain ⟨h1, h2, h3⟩ := h
  have hlt : sc < gb.nextSC := h3 k sc hb
  cases e with
  | resolveErr =>
    simp [stepB] at hs
    subst hs; exact ⟨hb, hdead⟩
  | resolve a f =>
    simp [stepB] at hs
    subst hs
    unfold gcpBalancer.handleResolvedAddrs
    by_cases he : gb.scRefs = []
    · rw [if_pos he]
      exact newSubConn_pres_binding { gb with addrs := a } f k sc hlt hb hdead
    · rw [if_neg he]
      exact ⟨hb, hdead⟩
  | newConn f =>
    simp [stepB] at hs
    subst hs
    exact newSubConn_pres_binding gb f k sc hlt hb hdead
  | stateChange sc2 st =>
    simp [stepB] at hs
    subst hs
    unfold gcpBalancer.handleSubConnStateChange
    cases hst2 : alookup gb.scStates sc2 with
    | none => exact ⟨hb, hdead⟩
    | some oldS =>
      have hne : ¬ sc = sc2 := by
        intro he
        rw [he, hst2] at hdead
        cases hdead
      by_cases hsd : st = .Shutdown
      · simp [hsd, alookup_aerase, alookup_aupsert, hne, hb, hdead]
      · simp [hsd, alookup_aupsert, hne, hb, hdead]
  | bind k2 sc2 =>
    cases href : alookup gb.scRefs sc2 with
    | none => simp [stepB, gcpBalancer.bindSubConn, href] at hs
    | some ref =>
      cases ham : alookup gb.affinityMap k2 with
      | some sc0 =>
        simp [stepB, gcpBalancer.bindSubConn, href, ham] at hs
        subst hs
        exact ⟨hb, hdead⟩
      | none =>
        have hne : ¬ k = k2 := by
          intro he
          rw [he, ham] at hb
          cases hb
        simp [stepB, gcpBalancer.bindSubConn, href, ham] at hs
        subst hs
        refine ⟨?_, hdead⟩
        simp [alookup_aupsert, hne, hb]
  | unbind k2 =>
    cases ham : alookup gb.affinityMap k2 with
    | none =>
      simp [stepB, gcpBalancer.unbindSubConn, ham] at hs
      subst hs; exact ⟨hb, hdead⟩
    | some sc0 =>
      by_cases hkk : k2 = k
      · subst hkk
        have hsc0 : sc0 = sc := by
          rw [ham] at hb
          exact Option.some.inj hb
        have hnone : alookup gb.scRefs sc = none := by
          have hh := (h1 sc).symm.trans (congrArg Option.isSome hdead)
          cases hrr : alookup gb.scRefs sc with
          | none => rfl
          | some r => rw [hrr] at hh; simp at hh
        rw [hsc0] at ham
        simp [stepB, gcpBalancer.unbindSubConn, ham, hnone] at hs
      · cases href : alookup gb.scRefs sc0 with
        | none => simp [stepB, gcpBalancer.unbindSubConn, ham, href] at hs
        | some ref =>
          have hne : ¬ k = k2 := fun he => hkk he.symm
          by_cases hle : wrap32 (ref.affinityCnt - 1) ≤ 0
          · simp [stepB, gcpBalancer.unbindSubConn, ham, href, hle] at hs
            subst hs
            refine ⟨?_, hdead⟩
            simp [alookup_aerase, hne, hb]
          · simp [stepB, gcpBalancer.unbindSubConn, ham, href, hle] at hs
            subst hs
            exact ⟨hb, hdead⟩
  | streamOpen sc2 =>
    cases href : alookup gb.scRefs sc2 with
    | none =>
      simp [stepB, gcpBalancer.streamsIncr, href] at hs
      subst hs; exact ⟨hb, hdead⟩
    | some ref =>
      simp [stepB, gcpBalancer.streamsIncr, href] at hs
      subst hs; exact ⟨hb, hdead⟩
  | streamClose sc2 =>
    cases href : alookup gb.scRefs sc2 with
    | none =>
      simp [stepB, gcpBalancer.streamsDecr, href] at hs
      subst hs; exact ⟨hb, hdead⟩
    | some ref =>
      simp [stepB, gcpBalancer.streamsDecr, href] at hs
      subst hs; exact ⟨hb, hdead⟩

theorem runB_pres_binding : ∀ (t : List PoolEvent) (gb gb' : gcpBalancer)
    (k : String) (sc : Nat), SMInv gb →
    alookup gb.affinityMap k = some sc →
    alookup gb.scStates sc = none →
    runB gb t = some gb' →
    alookup gb'.affinityMap k = some sc ∧ alookup gb'.scStates sc = none
  | [], gb, gb', k, sc, _, hb, hd, hs => by
    simp [runB] at hs
    subst hs; exact ⟨hb, hd⟩
  | e :: t, gb, gb', k, sc, h, hb, hd, hs => by
    cases hst : stepB gb e with
    | none => simp [runB, hst] at hs
    | some gb1 =>
      simp only [runB, hst] at hs
      obtain ⟨hb1, hd1⟩ := stepB_pres_binding gb gb1 e k sc h hb hd hst
      exact runB_pres_binding t gb1 gb' k sc
        (stepB_SMInv gb gb1 e h hst) hb1 hd1 hs

/-- C3: when the handle sc has a tracked ref, bindSubConn inserts the
mapping key to sc exactly when the key is unbound (an existing binding,
even to a different handle, is kept unchanged), and in every case bumps the
affinityCnt of sc's ref by exactly one (as a wrapping int32 add, which is a
plain increment whenever the old count is within int32 range); all other
keys and refs are untouched. -/
theorem c3_bindSubConn_incr (gb : gcpBalancer) (k : String) (sc : Nat)
    (ref : subConnRef) (h : alookup gb.scRefs sc = some ref) :
    ∃ gb', gb.bindSubConn k sc = some gb' ∧
      (alookup gb.affinityMap k = none →
        alookup gb'.affinityMap k = some sc) ∧
      (∀ sc0, alookup gb.affinityMap k = some sc0 →
        alookup gb'.affinityMap k = some sc0) ∧
      (∀ k', k' ≠ k → alookup gb'.affinityMap k' = alookup gb.affinityMap k') ∧
      alookup gb'.scRefs sc
        = some { ref with affinityCnt := wrap32 (ref.affinityCnt + 1) } ∧
      (-2147483648 ≤ ref.affinityCnt → ref.affinityCnt < 2147483647 →
        wrap32 (ref.affinityCnt + 1) = ref.affinityCnt + 1) ∧
      (∀ sc', sc' ≠ sc → alookup gb'.scRefs sc' = alookup gb.scRefs sc') := by
  cases ham : alookup gb.affinityMap k with
  | none =>
    refine ⟨{ gb with
        affinityMap := aupsert gb.affinityMap k sc
        scRefs := aupsert gb.scRefs sc
          { ref with affinityCnt := wrap32 (ref.affinityCnt + 1) } },
      ?_, ?_, ?_, ?_, ?_, ?_, ?_⟩
    · simp [gcpBalancer.bindSubConn, h, ham]
    · intro _
      simp [alookup_aupsert]
    · intro sc0 h0
      simp at h0
    · intro k' hk'
      simp [alookup_aupsert, hk']
    · simp [alookup_aupsert]
    · intro hlo hhi
      simp [wrap32]
      omega
    · intro sc' hsc'
      simp [alookup_aupsert, hsc']
  | some sc0 =>
    refine ⟨{ gb with
        scRefs := aupsert gb.scRefs sc
          { ref with affinityCnt := wrap32 (ref.affinityCnt + 1) } },
      ?_, ?_, ?_, ?_, ?_, ?_, ?_⟩
    · simp [gcpBalancer.bindSubConn, h, ham]
    · intro h0
      simp at h0
    · intro sc1 h0
      obtain rfl : sc0 = sc1 := Option.some.inj h0
      exact ham
    · intro k' hk'
      rfl
    · simp [alookup_aupsert]
    · intro hlo hhi
      simp [wrap32]
      omega
    · intro sc' hsc'
      simp [alookup_aupsert, hsc']

/-- Witness for C3: binding "k" to the tracked Idle connection 0. -/
theorem c3_bindSubConn_incr_witness :
    alookup gbOneIdle.scRefs 0 = some ⟨0, 0, 0⟩ ∧
      ∃ gb', gbOneIdle.bindSubConn "k" 0 = some gb' ∧
        (alookup gbOneIdle.affinityMap "k" = none →
          alookup gb'.affinityMap "k" = some 0) ∧
        (∀ sc0, alookup gbOneIdle.affinityMap "k" = some sc0 →
          alookup gb'.affinityMap "k" = some sc0) ∧
        (∀ k', k' ≠ "k" →
          alookup gb'.affinityMap k' = alookup gbOneIdle.affinityMap k') ∧
        alookup gb'.scRefs 0
          = some { subConn := 0, affinityCnt := wrap32 (0 + 1), streamsCnt := 0 } ∧
        (-2147483648 ≤ (0 : Int) → (0 : Int) < 2147483647 →
          wrap32 (0 + 1) = 0 + 1) ∧
        (∀ sc', sc' ≠ 0 →
          alookup gb'.scRefs sc' = alookup gbOneIdle.scRefs sc') :=
  ⟨by decide, c3_bindSubConn_incr gbOneIdle "k" 0 ⟨0, 0, 0⟩ (by decide)⟩

/-- C4: the scenario from the spec: binding "session1" twice to connection
0 gives affinity count 2 with the mapping present; one unbind gives count 1
with the mapping retained; a second unbind removes the mapping. In general,
unbind on a bound key whose handle has a tracked ref decrements that ref's
count by one (int32 wrap) and removes the mapping exactly when the
decremented count is at most zero; unbind of an unbound key changes
nothing. -/
theorem c4_unbind_scenario :
    (∃ s2 s3 s4,
      runB gbOneIdle [.bind "session1" 0, .bind "session1" 0] = some s2 ∧
      alookup s2.affinityMap "session1" = some 0 ∧
      alookup s2.scRefs 0 = some ⟨0, 2, 0⟩ ∧
      runB s2 [.unbind "session1"] = some s3 ∧
      alookup s3.affinityMap "session1" = some 0 ∧
      alookup s3.scRefs 0 = some ⟨0, 1, 0⟩ ∧
      runB s3 [.unbind "session1"] = some s4 ∧
      alookup s4.affinityMap "session1" = none ∧
      alookup s4.scRefs 0 = some ⟨0, 0, 0⟩) ∧
    (∀ (gb : gcpBalancer) (k : String) (sc : Nat) (ref : subConnRef),
      alookup gb.affinityMap k = some sc →
      alookup gb.scRefs sc = some ref →
      ∃ gb', gb.unbindSubConn k = some gb' ∧
        alookup gb'.scRefs sc
          = some { ref with affinityCnt := wrap32 (ref.affinityCnt - 1) } ∧
        alookup gb'.affinityMap k
          = (if wrap32 (ref.affinityCnt - 1) ≤ 0 then none else some sc)) ∧
    (∀ (gb : gcpBalancer) (k : String), alookup gb.affinityMap k = none →
      gb.unbindSubConn k = some gb) := by
  refine ⟨?_, ?_, ?_⟩
  · exact ⟨(runB gbOneIdle [.bind "session1" 0, .bind "session1" 0]).getD initGB,
      (runB ((runB gbOneIdle [.bind "session1" 0, .bind "session1" 0]).getD
        initGB) [.unbind "session1"]).getD initGB,
      (runB ((runB ((runB gbOneIdle [.bind "session1" 0, .bind "session1" 0]).getD
        initGB) [.unbind "session1"]).getD initGB) [.unbind "session1"]).getD initGB,
      by decide, by decide, by decide, by decide, by decide, by decide,
      by decide, by decide, by decide⟩
  · intro gb k sc ref h1 h2
    by_cases hle : wrap32 (ref.affinityCnt - 1) ≤ 0
    · refine ⟨{ gb with
          affinityMap := aerase gb.affinityMap k
          scRefs := aupsert gb.scRefs sc
            { ref with affinityCnt := wrap32 (ref.affinityCnt - 1) } },
        ?_, ?_, ?_⟩
      · simp [gcpBalancer.unbindSubConn, h1, h2, hle]
      · simp [alookup_aupsert]
      · simp [alookup_aerase, hle]
    · refine ⟨{ gb with
          scRefs := aupsert gb.scRefs sc
            { ref with affinityCnt := wrap32 (ref.affinityCnt - 1) } },
        ?_, ?_, ?_⟩
      · simp [gcpBalancer.unbindSubConn, h1, h2, hle]
      · simp [alookup_aupsert]
      · simp [hle, h1]
  · intro gb k h1
    simp [gcpBalancer.unbindSubConn, h1]

/-- Witness for C4's general parts: unbind of the bound key "k" (count 1,
so the mapping is removed), and unbind of the unbound key "z". -/
theorem c4_unbind_scenario_witness :
    (∃ gb', gbOneBound.unbindSubConn "k" = some gb' ∧
      alookup gb'.scRefs 0
        = some { subConn := 0, affinityCnt := wrap32 ((1 : Int) - 1),
                 streamsCnt := 0 } ∧
      alookup gb'.affinityMap "k"
        = (if wrap32 ((1 : Int) - 1) ≤ 0 then none else some 0)) ∧
    gbOneBound.unbindSubConn "z" = some gbOneBound :=
  ⟨c4_unbind_scenario.2.1 gbOneBound "k" 0 ⟨0, 1, 0⟩ (by decide) (by decide),
   c4_unbind_scenario.2.2 gbOneBound "z" (by decide)⟩

/-- C5: evaluation of the code at a failing input. Binding the two keys
"k1" and "k2" to connection 0 and then unbinding "k1" twice and "k2" once
leaves connection 0's affinityCnt at -1 in a state reached from the built
balancer: the unbind decrement has no floor, because the mapping for a key
survives while the shared count is still positive, so later unbinds of the
other key drive the count below zero. -/
theorem c5_affinityCnt_goes_negative :
    ∃ s ref, runB initGB
        [.resolve [0] false, .bind "k1" 0, .bind "k2" 0,
         .unbind "k1", .unbind "k1", .unbind "k2"] = some s ∧
      alookup s.scRefs 0 = some ref ∧ ref.affinityCnt < 0 :=
  ⟨(runB initGB
      [.resolve [0] false, .bind "k1" 0, .bind "k2" 0,
       .unbind "k1", .unbind "k1", .unbind "k2"]).getD initGB,
   (alookup ((runB initGB
      [.resolve [0] false, .bind "k1" 0, .bind "k2" 0,
       .unbind "k1", .unbind "k1", .unbind "k2"]).getD initGB).scRefs 0).getD
      ⟨0, 0, 0⟩,
   by decide, by decide, by decide⟩

/-- C6: evaluation of the code at a failing input. After binding "k1" and
"k2" to connection 0 and unbinding "k1" twice, the key "k2" is still
present in the affinity table while connection 0's affinityCnt is 0, so a
key can exist whose connection's count is not strictly positive. -/
theorem c6_key_present_count_zero :
    ∃ s ref, runB initGB
        [.resolve [0] false, .bind "k1" 0, .bind "k2" 0,
         .unbind "k1", .unbind "k1"] = some s ∧
      alookup s.affinityMap "k2" = some 0 ∧
      alookup s.scRefs 0 = some ref ∧ ¬ 0 < ref.affinityCnt :=
  ⟨(runB initGB
      [.resolve [0] false, .bind "k1" 0, .bind "k2" 0,
       .unbind "k1", .unbind "k1"]).getD initGB,
   (alookup ((runB initGB
      [.resolve [0] false, .bind "k1" 0, .bind "k2" 0,
       .unbind "k1", .unbind "k1"]).getD initGB).scRefs 0).getD ⟨0, 0, 0⟩,
   by decide, by decide, by decide, by decide⟩

/-- C7 counterexample: a reachable state with two connections both in
Connecting state: connection 0 is created and becomes Ready, a second
connection is created (no connection is Connecting at that moment), and
then externally driven state changes move both to Connecting. The creation
guard does not bound the number of Connecting connections. -/
theorem c7_two_connecting_reachable :
    ∃ s, runB initGB
        [.resolve [0] false, .stateChange 0 .Ready, .newConn false,
         .stateChange 0 .Connecting, .stateChange 1 .Connecting] = some s ∧
      ¬ connectingCount s ≤ 1 :=
  ⟨(runB initGB
      [.resolve [0] false, .stateChange 0 .Ready, .newConn false,
       .stateChange 0 .Connecting, .stateChange 1 .Connecting]).getD initGB,
   by decide, by decide⟩

/-- C7 amended: what the creation guard does ensure: newSubConn called
while some tracked connection is Connecting creates nothing and changes no
state. -/
theorem c7_newSubConn_guard (gb : gcpBalancer) (f : Bool)
    (h : gb.scStates.any (fun p => decide (p.2 = ConnState.Connecting)) = true) :
    gb.newSubConn f = gb := by
  unfold gcpBalancer.newSubConn
  rw [if_pos h]

/-- Witness for the C7 guard at a one-connection Connecting pool. -/
theorem c7_newSubConn_guard_witness :
    (⟨[5], .Idle, ⟨0, 0, 0⟩, [], [(0, .Connecting)], [(0, ⟨0, 0, 0⟩)], 1⟩ :
        gcpBalancer).newSubConn false
      = ⟨[5], .Idle, ⟨0, 0, 0⟩, [], [(0, .Connecting)], [(0, ⟨0, 0, 0⟩)], 1⟩ :=
  c7_newSubConn_guard
    ⟨[5], .Idle, ⟨0, 0, 0⟩, [], [(0, .Connecting)], [(0, ⟨0, 0, 0⟩)], 1⟩
    false (by decide)

/-- C8 counterexample: bindSubConn with a handle that has no tracked ref
dereferences the nil map value in Go and panics; on the freshly built
balancer, binding any key to handle 0 is such a panic (modelled as none). -/
theorem c8_bind_unknown_panics : stepB initGB (.bind "k" 0) = none := by
  decide

/-- C8 amended: every operation is total except bindSubConn on an untracked
handle and unbindSubConn of a key whose bound handle has no tracked ref,
the two nil-dereference panic paths; in particular a state-change
notification for an unknown handle is a silent no-op. -/
theorem c8_no_panic_otherwise :
    (∀ (gb : gcpBalancer) (e : PoolEvent), noPanic gb e →
      (stepB gb e).isSome = true) ∧
    (∀ (gb : gcpBalancer) (sc : Nat) (st : ConnState),
      alookup gb.scStates sc = none →
      gb.handleSubConnStateChange sc st = gb) := by
  constructor
  · intro gb e h
    cases e with
    | resolveErr => simp [stepB]
    | resolve a f => simp [stepB]
    | newConn f => simp [stepB]
    | stateChange sc st => simp [stepB]
    | bind k sc =>
      obtain ⟨ref, href⟩ := Option.isSome_iff_exists.mp h
      simp [stepB, gcpBalancer.bindSubConn, href]
    | unbind k =>
      cases ham : alookup gb.affinityMap k with
      | none => simp [stepB, gcpBalancer.unbindSubConn, ham]
      | some sc =>
        obtain ⟨ref, href⟩ := Option.isSome_iff_exists.mp (h sc ham)
        by_cases hle : wrap32 (ref.affinityCnt - 1) ≤ 0 <;>
          simp [stepB, gcpBalancer.unbindSubConn, ham, href, hle]
    | streamOpen sc =>
      cases href : alookup gb.scRefs sc <;>
        simp [stepB, gcpBalancer.streamsIncr, href]
    | streamClose sc =>
      cases href : alookup gb.scRefs sc <;>
        simp [stepB, gcpBalancer.streamsDecr, href]
  · intro gb sc st h
    unfold gcpBalancer.handleSubConnStateChange
    rw [h]

/-- Witness for C8 amended: an unbind of an unbound key on the built
balancer succeeds, and a state change for the unknown handle 7 is a
no-op. -/
theorem c8_no_panic_otherwise_witness :
    (stepB initGB (.unbind "k")).isSome = true ∧
      initGB.handleSubConnStateChange 7 .Ready = initGB :=
  ⟨c8_no_panic_otherwise.1 initGB (.unbind "k")
      (fun sc h => by simp [initGB, alookup] at h),
   c8_no_panic_otherwise.2 initGB 7 .Ready (by decide)⟩

/-- C9: getReadySubConnRef returns (nil, false) for a never-bound key,
(nil, true) for a bound key whose connection's current state (Idle for an
absent entry) is not Ready, and (the bound connection's ref from scRefs,
true) when that state is Ready; in a reachable state the Ready case always
finds the ref, so temporarily-unavailable is distinguishable from
never-bound. -/
theorem c9_getReadySubConnRef_cases (gb : gcpBalancer) (k : String) :
    (alookup gb.affinityMap k = none →
      gb.getReadySubConnRef k = (none, false)) ∧
    (∀ sc, alookup gb.affinityMap k = some sc →
      (alookup gb.scStates sc).getD .Idle ≠ .Ready →
      gb.getReadySubConnRef k = (none, true)) ∧
    (∀ sc, alookup gb.affinityMap k = some sc →
      (alookup gb.scStates sc).getD .Idle = .Ready →
      gb.getReadySubConnRef k = (alookup gb.scRefs sc, true)) ∧
    (∀ sc, Reachable gb → alookup gb.affinityMap k = some sc →
      (alookup gb.scStates sc).getD .Idle = .Ready →
      ∃ ref, alookup gb.scRefs sc = some ref ∧
        gb.getReadySubConnRef k = (some ref, true)) := by
  refine ⟨?_, ?_, ?_, ?_⟩
  · intro h
    simp [gcpBalancer.getReadySubConnRef, h]
  · intro sc hb hnr
    simp [gcpBalancer.getReadySubConnRef, hb, hnr]
  · intro sc hb hr
    simp [gcpBalancer.getReadySubConnRef, hb, hr]
  · intro sc hreach hb hr
    obtain ⟨h1, h2, h3⟩ := reachable_SMInv gb hreach
    have hsome : (alookup gb.scStates sc).isSome = true := by
      cases hss : alookup gb.scStates sc with
      | none => rw [hss] at hr; simp at hr
      | some st => simp
    obtain ⟨ref, href⟩ :=
      Option.isSome_iff_exists.mp ((h1 sc).symm.trans hsome)
    refine ⟨ref, href, ?_⟩
    simp [gcpBalancer.getReadySubConnRef, hb, hr, href]

/-- Witness for C9 on a reachable one-connection pool: "k" bound to the
Ready connection 0 yields its ref; the unbound key "z" yields (none,
false). -/
theorem c9_getReadySubConnRef_cases_witness :
    (∃ gb, runB initGB [.resolve [0] false, .stateChange 0 .Ready,
        .bind "k" 0] = some gb ∧
      gb.getReadySubConnRef "z" = (none, false) ∧
      ∃ ref, alookup gb.scRefs 0 = some ref ∧
        gb.getReadySubConnRef "k" = (some ref, true)) :=
  ⟨(runB initGB [.resolve [0] false, .stateChange 0 .Ready,
      .bind "k" 0]).getD initGB,
   by decide,
   (c9_getReadySubConnRef_cases
      ((runB initGB [.resolve [0] false, .stateChange 0 .Ready,
        .bind "k" 0]).getD initGB) "z").1 (by decide),
   (c9_getReadySubConnRef_cases
      ((runB initGB [.resolve [0] false, .stateChange 0 .Ready,
        .bind "k" 0]).getD initGB) "k").2.2.2 0
      ⟨[.resolve [0] false, .stateChange 0 .Ready, .bind "k" 0], by decide⟩
      (by decide) (by decide)⟩

/-- C10: a Shutdown transition of a tracked connection deletes its handle
from scStates and scRefs but leaves any affinity mapping to it in place;
from then on, in any reachable state, every successful operation sequence
preserves the stale binding and the handle's absence, so
getReadySubConnRef on the key keeps answering (none, true) - bound but not
ready (the absent handle reads as the zero-value state Idle), never
not-found. -/
theorem c10_stale_binding_bound_not_ready :
    (∀ (gb : gcpBalancer) (k : String) (sc : Nat) (st : ConnState),
      alookup gb.affinityMap k = some sc →
      alookup gb.scStates sc = some st →
      alookup (gb.handleSubConnStateChange sc .Shutdown).scStates sc = none ∧
      alookup (gb.handleSubConnStateChange sc .Shutdown).scRefs sc = none ∧
      alookup (gb.handleSubConnStateChange sc .Shutdown).affinityMap k
        = some sc) ∧
    (∀ (gb gb' : gcpBalancer) (k : String) (sc : Nat) (t : List PoolEvent),
      Reachable gb →
      alookup gb.affinityMap k = some sc →
      alookup gb.scStates sc = none →
      runB gb t = some gb' →
      gb'.getReadySubConnRef k = (none, true)) := by
  constructor
  · intro gb k sc st hb hst
    unfold gcpBalancer.handleSubConnStateChange
    rw [hst]
    simp [alookup_aerase, alookup_aupsert, hb]
  · intro gb gb' k sc t hreach hb hdead ht
    obtain ⟨hb', hdead'⟩ := runB_pres_binding t gb gb' k sc
      (reachable_SMInv gb hreach) hb hdead ht
    simp [gcpBalancer.getReadySubConnRef, hb', hdead']

/-- Witness for C10: connection 0 is created, "k" is bound to it, it shuts
down; after one further (ignored) state-change event the lookup still
answers (none, true). -/
theorem c10_stale_binding_bound_not_ready_witness :
    (∃ gb2,
      runB initGB [.resolve [0] false, .bind "k" 0] = some gb2 ∧
      alookup (gb2.handleSubConnStateChange 0 .Shutdown).scStates 0 = none ∧
      alookup (gb2.handleSubConnStateChange 0 .Shutdown).scRefs 0 = none ∧
      alookup (gb2.handleSubConnStateChange 0 .Shutdown).affinityMap "k"
        = some 0) ∧
    (∃ gb gb',
      runB initGB [.resolve [0] false, .bind "k" 0,
        .stateChange 0 .Shutdown] = some gb ∧
      runB gb [.stateChange 0 .Ready] = some gb' ∧
      gb'.getReadySubConnRef "k" = (none, true)) := by
  constructor
  · refine ⟨(runB initGB [.resolve [0] false, .bind "k" 0]).getD initGB,
      by decide, ?_⟩
    exact c10_stale_binding_bound_not_ready.1
      ((runB initGB [.resolve [0] false, .bind "k" 0]).getD initGB)
      "k" 0 .Idle (by decide) (by decide)
  · refine ⟨(runB initGB [.resolve [0] false, .bind "k" 0,
        .stateChange 0 .Shutdown]).getD initGB,
      (runB ((runB initGB [.resolve [0] false, .bind "k" 0,
        .stateChange 0 .Shutdown]).getD initGB)
        [.stateChange 0 .Ready]).getD initGB,
      by decide, by decide, ?_⟩
    exact c10_stale_binding_bound_not_ready.2
      ((runB initGB [.resolve [0] false, .bind "k" 0,
        .stateChange 0 .Shutdown]).getD initGB)
      ((runB ((runB initGB [.resolve [0] false, .bind "k" 0,
        .stateChange 0 .Shutdown]).getD initGB)
        [.stateChange 0 .Ready]).getD initGB)
      "k" 0 [.stateChange 0 .Ready]
      ⟨[.resolve [0] false, .bind "k" 0, .stateChange 0 .Shutdown], by decide⟩
      (by decide) (by decide) (by decide)
